import Mathlib

/-!
Shallow embedding of the ai-news ingestion core (StorageService,
ClassificationService, NewsCollectorService, SchedulerService) and proofs of
the specified properties.  Dates are modelled as `Int` milliseconds since the
epoch (JS `Date.getTime()`); JS `number` scores/averages are modelled as `ℚ`;
a JS `Map` is modelled as an association list in insertion order (JS `Map`
iteration order).  Calendar-day arithmetic (`setDate(getDate() - n)`) is
modelled as subtracting `n * 86400000` milliseconds.
-/

namespace AINews

/-- The ten AI categories.  The enum `AICategory` is declared in `src/types`
(not present under `src/`); its ten constructor names are taken from the
keyword dictionary in `ClassificationService` and the enum listing repeated in
the repository design document and `logger.test.ts`. -/
inductive AICategory where
  | AI_MODELS
  | AI_ASSISTANT
  | AI_AGENT
  | AI_IDE
  | AI_CLI
  | AI_SEARCH
  | AI_INTEGRATION
  | AI_MULTIMODAL
  | AI_NOCODE
  | AI_DATA_ANALYSIS
deriving DecidableEq

/-- A news item.  The interface `NewsItem` is declared in `src/types` (not
present under `src/`); its fields are exactly those used by the services and
listed in the spec data model: id, title, description, link, pubDate, source,
category, optional content, createdAt. -/
structure NewsItem where
  id : String
  title : String
  description : String
  link : String
  pubDate : Int
  source : String
  category : AICategory
  content : Option String
  createdAt : Int
deriving DecidableEq

/-- One millisecond-count hour, as in `isDuplicate`. -/
def oneHourMs : Int := 60 * 60 * 1000

/-- One millisecond-count day. -/
def msPerDay : Int := 24 * 60 * 60 * 1000

/-- `map.has k` on the association-list model of a JS `Map`. -/
def mapHas (l : List (String × NewsItem)) (k : String) : Bool :=
  l.any (fun e => e.1 == k)

/-- `map.get k`. -/
def mapGet (l : List (String × NewsItem)) (k : String) : Option NewsItem :=
  (l.find? (fun e => e.1 == k)).map Prod.snd

/-- `map.set k v`: replace in place when the key exists, else append
(JS `Map` keeps the original insertion position on overwrite). -/
def mapSet (l : List (String × NewsItem)) (k : String) (v : NewsItem) :
    List (String × NewsItem) :=
  if mapHas l k then l.map (fun e => if e.1 == k then (k, v) else e)
  else l ++ [(k, v)]

/-- `map.delete k` (the removal effect). -/
def mapDelete (l : List (String × NewsItem)) (k : String) :
    List (String × NewsItem) :=
  l.filter (fun e => !(e.1 == k))

/-- The in-memory `StorageService`: its `newsItems` map plus the two
construction-time limits. -/
structure StorageService where
  maxItems : Nat
  maxAgeInDays : Nat
  newsItems : List (String × NewsItem)
deriving DecidableEq

/-- `StorageService.isDuplicate`: same id already present, or an existing item
with the same link whose `pubDate` differs by at most one hour. -/
def StorageService.isDuplicate (s : StorageService) (item : NewsItem) : Bool :=
  mapHas s.newsItems item.id ||
    s.newsItems.any (fun e =>
      e.2.link == item.link && ((e.2.pubDate - item.pubDate).natAbs ≤ 3600000 : Bool))

/-- `StorageService.cleanupOldItems`: delete every item with
`pubDate < now - maxAgeInDays` days. -/
def StorageService.cleanupOldItems (s : StorageService) (now : Int) :
    StorageService :=
  { s with newsItems :=
      s.newsItems.filter (fun e => !(e.2.pubDate < now - s.maxAgeInDays * msPerDay : Bool)) }

/-- Comparator of `enforceMemoryLimit`'s sort: ascending `pubDate`. -/
def entryLE (a b : String × NewsItem) : Prop := a.2.pubDate ≤ b.2.pubDate

instance : DecidableRel entryLE := fun a b => by
  unfold entryLE; infer_instance

instance : IsTotal (String × NewsItem) entryLE :=
  ⟨fun a b => le_total a.2.pubDate b.2.pubDate⟩

instance : IsTrans (String × NewsItem) entryLE :=
  ⟨fun _ _ _ h1 h2 => le_trans h1 h2⟩

/-- The entries sorted oldest-first, as built inside `enforceMemoryLimit`
(JS `Array.prototype.sort` is stable; insertion sort is the matching stable
sort). -/
def sortedAsc (l : List (String × NewsItem)) : List (String × NewsItem) :=
  List.insertionSort entryLE l

/-- One iteration of `enforceMemoryLimit`'s while loop: delete the first entry
of the oldest-first sort. -/
def evictOldestOnce (l : List (String × NewsItem)) : List (String × NewsItem) :=
  match sortedAsc l with
  | [] => l
  | e :: _ => mapDelete l e.1

/-- The body of `enforceMemoryLimit`'s while loop, iterated at most `fuel`
times.  Each iteration of the loop removes at least one entry, so the initial
length of the list bounds the number of iterations; `enforceLoop` below
instantiates the fuel with that bound and `enforceLoop_eq` recovers the
literal loop equation. -/
def enforceLoopFuel (maxItems : Nat) :
    Nat → List (String × NewsItem) → List (String × NewsItem)
  | 0, l => l
  | fuel + 1, l =>
    if l.length > maxItems then enforceLoopFuel maxItems fuel (evictOldestOnce l)
    else l

/-- The while loop of `enforceMemoryLimit`: evict the oldest entry while the
count exceeds `maxItems`. -/
def enforceLoop (maxItems : Nat) (l : List (String × NewsItem)) :
    List (String × NewsItem) :=
  enforceLoopFuel maxItems l.length l

/-- `StorageService.enforceMemoryLimit`. -/
def StorageService.enforceMemoryLimit (s : StorageService) : StorageService :=
  { s with newsItems := enforceLoop s.maxItems s.newsItems }

/-- `StorageService.saveNewsItem`: reject duplicates, otherwise insert, purge
old items, then enforce the capacity limit.  `now` is the wall clock read by
`cleanupOldItems`.  Returns the boolean result together with the new state. -/
def StorageService.saveNewsItem (s : StorageService) (now : Int)
    (item : NewsItem) : Bool × StorageService :=
  if s.isDuplicate item then (false, s)
  else
    let s1 : StorageService := { s with newsItems := mapSet s.newsItems item.id item }
    let s2 := s1.cleanupOldItems now
    let s3 := s2.enforceMemoryLimit
    (true, s3)

/-- `StorageService.saveNewsItems`: batch save, counting successes. -/
def StorageService.saveNewsItems (s : StorageService) (now : Int)
    (items : List NewsItem) : Nat × StorageService :=
  items.foldl
    (fun acc item =>
      let r := acc.2.saveNewsItem now item
      (acc.1 + (if r.1 then 1 else 0), r.2))
    (0, s)

/-- `StorageService.getNewsItem`. -/
def StorageService.getNewsItem (s : StorageService) (id : String) :
    Option NewsItem :=
  mapGet s.newsItems id

/-- `StorageService.getItemCount`. -/
def StorageService.getItemCount (s : StorageService) : Nat :=
  s.newsItems.length

/-- `StorageService.deleteNewsItem`. -/
def StorageService.deleteNewsItem (s : StorageService) (id : String) :
    Bool × StorageService :=
  (mapHas s.newsItems id, { s with newsItems := mapDelete s.newsItems id })

/-- The `category` filter field: a concrete category or the wildcard `'all'`. -/
inductive CategoryFilter where
  | all
  | cat (c : AICategory)
deriving DecidableEq

/-- `StorageFilterOptions`.  Absent optional fields are `none`.  JS truthiness
of present-but-falsy values (`0`, `""`) is reproduced inside `getNewsItems`. -/
structure StorageFilterOptions where
  category : Option CategoryFilter
  startDate : Option Int
  endDate : Option Int
  source : Option String
  limit : Option Nat
  offset : Option Nat

/-- Comparator of `getNewsItems`'s sort: descending `pubDate` (`b - a`). -/
def itemGE (a b : NewsItem) : Prop := b.pubDate ≤ a.pubDate

instance : DecidableRel itemGE := fun a b => by
  unfold itemGE; infer_instance

instance : IsTotal NewsItem itemGE :=
  ⟨fun a b => le_total b.pubDate a.pubDate⟩

instance : IsTrans NewsItem itemGE :=
  ⟨fun _ _ _ h1 h2 => le_trans h2 h1⟩

/-- The items sorted newest-first, as in `getNewsItems` (stable). -/
def sortedDesc (l : List NewsItem) : List NewsItem :=
  List.insertionSort itemGE l

/-- `StorageService.getNewsItems`: sequential category / date-range / source
filters, newest-first sort, then `offset` and `limit` slices.  `options.offset`
and `options.limit` equal to `0` and `options.source` equal to `""` are falsy
in JS, so those steps are skipped. -/
def StorageService.getNewsItems (s : StorageService)
    (options : StorageFilterOptions) : List NewsItem :=
  let items0 := s.newsItems.map Prod.snd
  let items1 :=
    match options.category with
    | some (CategoryFilter.cat c) => items0.filter (fun i => i.category == c)
    | _ => items0
  let items2 :=
    match options.startDate with
    | some d => items1.filter (fun i => (d ≤ i.pubDate : Bool))
    | none => items1
  let items3 :=
    match options.endDate with
    | some d => items2.filter (fun i => (i.pubDate ≤ d : Bool))
    | none => items2
  let items4 :=
    match options.source with
    | some src =>
        if src = "" then items3 else items3.filter (fun i => i.source == src)
    | none => items3
  let items5 := sortedDesc items4
  let items6 :=
    match options.offset with
    | some off => if off = 0 then items5 else items5.drop off
    | none => items5
  match options.limit with
  | some lim => if lim = 0 then items6 else items6.take lim
  | none => items6

/-- A `Partial<NewsItem>`: every field optional. -/
structure NewsItemPatch where
  id : Option String
  title : Option String
  description : Option String
  link : Option String
  pubDate : Option Int
  source : Option String
  category : Option AICategory
  content : Option (Option String)
  createdAt : Option Int
deriving DecidableEq

/-- The empty patch (`{}`). -/
def NewsItemPatch.empty : NewsItemPatch :=
  ⟨none, none, none, none, none, none, none, none, none⟩

/-- The object spread `{...existingItem, ...updates}`. -/
def applyPatch (item : NewsItem) (p : NewsItemPatch) : NewsItem :=
  { id := p.id.getD item.id
    title := p.title.getD item.title
    description := p.description.getD item.description
    link := p.link.getD item.link
    pubDate := p.pubDate.getD item.pubDate
    source := p.source.getD item.source
    category := p.category.getD item.category
    content := p.content.getD item.content
    createdAt := p.createdAt.getD item.createdAt }

/-- `StorageService.updateNewsItem`: merge the partial update over the
existing item and store the result under the original key. -/
def StorageService.updateNewsItem (s : StorageService) (id : String)
    (p : NewsItemPatch) : Bool × StorageService :=
  match mapGet s.newsItems id with
  | none => (false, s)
  | some existing =>
      (true, { s with newsItems := mapSet s.newsItems id (applyPatch existing p) })

/-- JS `toLowerCase` on the ASCII/Japanese alphabet of this code base,
as a character list. -/
def lowerChars (s : String) : List Char :=
  s.data.map Char.toLower

/-- The left-to-right, non-overlapping matching scan behind
`text.match(new RegExp(keywordLower, 'g'))`, iterated at most `fuel` times;
each step consumes at least one character of the text, so the text's length
bounds the number of steps. -/
def countOccurrencesFuel (kw : List Char) : Nat → List Char → Nat
  | 0, _ => 0
  | fuel + 1, text =>
    match text with
    | [] => 0
    | c :: rest =>
      if kw ≠ [] ∧ kw.isPrefixOf (c :: rest) then
        1 + countOccurrencesFuel kw fuel ((c :: rest).drop kw.length)
      else countOccurrencesFuel kw fuel rest

/-- The occurrence count computed by `text.match(new RegExp(keywordLower, 'g'))`:
left-to-right, non-overlapping (matching resumes after the end of each match).
None of the keywords contains a regex metacharacter, so the regex matches the
literal keyword. -/
def countOccurrences (kw text : List Char) : Nat :=
  countOccurrencesFuel kw text.length text

/-- Modelled from the spec: the number of (possibly overlapping) starting
positions at which `kw` occurs in `text` — the plain "substring occurrence
count" reading of the spec's scoring formula. -/
def occurrencePositions (kw text : List Char) : Nat :=
  (List.range text.length).countP (fun i => kw.isPrefixOf (text.drop i))

/-- `ClassificationService.getKeywordWeight`: 3.0 for length > 10, 2.0 for
length > 6, else 1.0. -/
def getKeywordWeight (kw : String) : ℚ :=
  if kw.length > 10 then 3 else if kw.length > 6 then 2 else 1

/-- The weight tiers as naturals (`getKeywordWeight` only takes the integral
values 1, 2, 3); used to evaluate scores by natural-number computation. -/
def natWeight (kw : String) : Nat :=
  if kw.length > 10 then 3 else if kw.length > 6 then 2 else 1

/-- The keyword dictionary of `initializeKeywordDictionary`, in declaration
order. -/
def keywordDictionary : AICategory → List String
  | .AI_MODELS =>
      ["GPT", "ChatGPT", "LLM", "Large Language Model", "大規模言語モデル",
       "BERT", "Transformer", "OpenAI", "Claude", "Gemini", "Llama",
       "モデル", "model", "学習", "training", "fine-tuning", "ファインチューニング",
       "neural network", "ニューラルネットワーク", "deep learning", "ディープラーニング",
       "machine learning", "機械学習", "AI model", "AIモデル"]
  | .AI_ASSISTANT =>
      ["ChatGPT", "Siri", "Alexa", "Google Assistant", "Cortana",
       "アシスタント", "assistant", "チャットボット", "chatbot", "bot",
       "対話", "conversation", "chat", "チャット", "会話",
       "virtual assistant", "バーチャルアシスタント", "AI助手", "AI秘書"]
  | .AI_AGENT =>
      ["agent", "エージェント", "autonomous", "自律", "automation", "自動化",
       "workflow", "ワークフロー", "task automation", "タスク自動化",
       "intelligent agent", "インテリジェントエージェント", "AI agent", "AIエージェント",
       "multi-agent", "マルチエージェント", "agent system", "エージェントシステム"]
  | .AI_IDE =>
      ["IDE", "editor", "エディタ", "code", "コード", "programming", "プログラミング",
       "development", "開発", "coding", "コーディング", "GitHub Copilot", "Copilot",
       "code completion", "コード補完", "code generation", "コード生成",
       "VS Code", "Visual Studio", "IntelliJ", "development environment", "開発環境"]
  | .AI_CLI =>
      ["CLI", "command line", "コマンドライン", "terminal", "ターミナル",
       "shell", "シェル", "command", "コマンド", "bash", "zsh",
       "CLI tool", "CLIツール", "command line tool", "コマンドラインツール",
       "terminal AI", "ターミナルAI"]
  | .AI_SEARCH =>
      ["search", "検索", "knowledge base", "ナレッジベース", "knowledge",
       "information retrieval", "情報検索", "semantic search", "セマンティック検索",
       "vector search", "ベクトル検索", "RAG", "retrieval", "検索拡張生成",
       "database", "データベース", "index", "インデックス", "Elasticsearch"]
  | .AI_INTEGRATION =>
      ["integration", "統合", "SaaS", "API", "webhook", "Zapier", "Make",
       "workflow automation", "ワークフロー自動化", "business process", "ビジネスプロセス",
       "enterprise", "エンタープライズ", "platform", "プラットフォーム",
       "connector", "コネクタ", "middleware", "ミドルウェア"]
  | .AI_MULTIMODAL =>
      ["multimodal", "マルチモーダル", "voice", "音声", "speech", "スピーチ",
       "image", "画像", "video", "動画", "vision", "ビジョン", "audio", "オーディオ",
       "text-to-speech", "speech-to-text", "音声認識", "音声合成",
       "computer vision", "コンピュータビジョン", "OCR", "image recognition", "画像認識"]
  | .AI_NOCODE =>
      ["no-code", "ノーコード", "low-code", "ローコード", "drag and drop", "ドラッグアンドドロップ",
       "visual programming", "ビジュアルプログラミング", "builder", "ビルダー",
       "template", "テンプレート", "workflow builder", "ワークフロービルダー",
       "automation platform", "自動化プラットフォーム"]
  | .AI_DATA_ANALYSIS =>
      ["data analysis", "データ分析", "analytics", "アナリティクス", "visualization", "可視化",
       "dashboard", "ダッシュボード", "report", "レポート", "insight", "インサイト",
       "business intelligence", "BI", "data science", "データサイエンス",
       "statistics", "統計", "metrics", "メトリクス", "KPI", "data mining", "データマイニング"]

/-- The categories in the dictionary's declaration order (the iteration order
of `Object.entries` over the literal). -/
def allCategories : List AICategory :=
  [.AI_MODELS, .AI_ASSISTANT, .AI_AGENT, .AI_IDE, .AI_CLI,
   .AI_SEARCH, .AI_INTEGRATION, .AI_MULTIMODAL, .AI_NOCODE, .AI_DATA_ANALYSIS]

/-- The per-category score of `getKeywordMatches`: for each keyword, count its
occurrences in the (already lower-cased) text; a positive count contributes
`matches * weight`. -/
def categoryScore (text : List Char) (c : AICategory) : ℚ :=
  (keywordDictionary c).foldl
    (fun score kw =>
      let matchCount := countOccurrences (lowerChars kw) text
      if matchCount > 0 then score + (matchCount : ℚ) * getKeywordWeight kw
      else score)
    0

/-- `text.includes(sub)`. -/
def containsSub (text sub : List Char) : Bool :=
  (List.range (text.length + 1)).any (fun i => sub.isPrefixOf (text.drop i))

/-- `getMatchedKeywordsForCategory`: the keywords occurring in the text. -/
def getMatchedKeywordsForCategory (text : List Char) (c : AICategory) :
    List String :=
  (keywordDictionary c).filter (fun kw => containsSub text (lowerChars kw))

/-- The best-category fold of `analyzeContent`: start from the default
category with score 0 and take each category whose score strictly exceeds the
best so far. -/
def pickBest (text : List Char) (init : AICategory × ℚ × List String)
    (cats : List AICategory) : AICategory × ℚ × List String :=
  cats.foldl
    (fun best c =>
      let score := categoryScore text c
      if best.2.1 < score then (c, score, getMatchedKeywordsForCategory text c)
      else best)
    init

/-- `ClassificationResult`. -/
structure ClassificationResult where
  category : AICategory
  confidence : ℚ
  matchedKeywords : List String

/-- The lower-cased concatenation `title + " " + description`. -/
def combinedLower (title description : String) : List Char :=
  lowerChars (title ++ " " ++ description)

/-- `ClassificationService.analyzeContent`. -/
def analyzeContent (defaultCategory : AICategory) (title description : String) :
    ClassificationResult :=
  let combinedText := combinedLower title description
  let best := pickBest combinedText (defaultCategory, 0, []) allCategories
  let textLength : ℚ := (combinedText.length : ℚ)
  let confidence := min (best.2.1 / max (textLength / 100) 1) 1
  ⟨best.1, confidence, best.2.2⟩

/-- The mutable configuration of `ClassificationService`; the code's initial
values are `AI_MODELS` and `0.1`. -/
structure ClassificationService where
  defaultCategory : AICategory
  minConfidenceThreshold : ℚ

/-- `ClassificationService.classifyNews`: fall back to the item's
source-provided category when the confidence is below the threshold. -/
def ClassificationService.classifyNews (svc : ClassificationService)
    (item : NewsItem) : AICategory :=
  let result := analyzeContent svc.defaultCategory item.title item.description
  if result.confidence < svc.minConfidenceThreshold then item.category
  else result.category

/-- `RSSSource`. -/
structure RSSSource where
  name : String
  url : String
  defaultCategory : AICategory

/-- `NewsCollectorService.collectFromAllSources`: fan out over the sources,
join with `Promise.allSettled`, and push the items of each fulfilled source in
source order; rejected sources contribute nothing.  The settled outcome of
`collectFromSourceWithRetry` for each source is the oracle `fetchResult`. -/
def collectFromAllSources (sources : List RSSSource)
    (fetchResult : RSSSource → Except String (List NewsItem)) : List NewsItem :=
  (sources.map fetchResult).foldl
    (fun allNews result =>
      match result with
      | Except.ok items => allNews ++ items
      | Except.error _ => allNews)
    []

/-- `CollectionStats`. -/
structure CollectionStats where
  lastRun : Option Int
  totalRuns : Nat
  successfulRuns : Nat
  failedRuns : Nat
  totalItemsCollected : Nat
  lastRunDuration : Nat
  averageRunDuration : ℚ
  isRunning : Bool
deriving DecidableEq

/-- The record returned by `executeCollection` / `executeCollectionManually`. -/
structure RunResult where
  success : Bool
  itemsCollected : Nat
  duration : Nat
  error : Option String
deriving DecidableEq

/-- The scheduler's run-related mutable state (the timer handle plays no part
in the run logic). -/
structure SchedulerState where
  isRunning : Bool
  stats : CollectionStats
  runDurations : List Nat
deriving DecidableEq

/-- `maxDurationHistory`. -/
def maxDurationHistory : Nat := 10

/-- The result `executeCollection` returns when a run is already in flight. -/
def busyResult : RunResult :=
  ⟨false, 0, 0, some "Collection already in progress"⟩

/-- The head of `executeCollection` up to the first suspension point: the
`isRunning` guard, then setting the flag and bumping `totalRuns`.  Returns
`none` when the guard rejects the run. -/
def beginCollection (st : SchedulerState) : Option SchedulerState :=
  if st.isRunning then none
  else some { st with
    isRunning := true
    stats := { st.stats with totalRuns := st.stats.totalRuns + 1 } }

/-- `completeCollection`: clear the running flag, update last-run fields, the
success/failure counters, and the rolling average over the last 10 durations. -/
def completeCollection (st : SchedulerState) (now : Int) (duration : Nat)
    (success : Bool) (itemsCollected : Nat) (error : Option String) :
    RunResult × SchedulerState :=
  let durations0 := st.runDurations ++ [duration]
  let durations :=
    if durations0.length > maxDurationHistory then durations0.drop 1 else durations0
  let stats : CollectionStats :=
    { st.stats with
      lastRun := some now
      lastRunDuration := duration
      isRunning := false
      successfulRuns := st.stats.successfulRuns + (if success then 1 else 0)
      failedRuns := st.stats.failedRuns + (if success then 0 else 1)
      averageRunDuration :=
        ((durations.map (fun d => (d : ℚ))).sum) / (durations.length : ℚ) }
  (⟨success, itemsCollected, duration, error⟩,
   { st with isRunning := false, stats := stats, runDurations := durations })

/-- The settled outcome of the awaited collect→classify→save pipeline body of
one run: either every stage returned and `savedCount` items were saved (an
empty collection is `ok 0`), or some stage threw with a message. -/
inductive PipelineOutcome where
  | ok (savedCount : Nat)
  | fail (msg : String)
deriving DecidableEq

/-- `executeCollection` over one run, with the pipeline body abstracted by its
settled outcome and measured duration: guard on `isRunning`, run the pipeline,
add saved items to `totalItemsCollected` on success, then complete. -/
def executeCollection (st : SchedulerState) (now : Int) (duration : Nat)
    (outcome : PipelineOutcome) : RunResult × SchedulerState :=
  match beginCollection st with
  | none => (busyResult, st)
  | some st1 =>
    match outcome with
    | PipelineOutcome.ok saved =>
        let st2 : SchedulerState :=
          { st1 with stats :=
              { st1.stats with
                totalItemsCollected := st1.stats.totalItemsCollected + saved } }
        completeCollection st2 now duration true saved none
    | PipelineOutcome.fail msg =>
        completeCollection st1 now duration false 0 (some msg)

/-- One mutating storage operation, as driven by the pipeline and the API
layer. -/
inductive StoreOp where
  | save (now : Int) (item : NewsItem)
  | saveAll (now : Int) (items : List NewsItem)
  | update (id : String) (p : NewsItemPatch)
  | delete (id : String)

/-- Apply one operation to the store (keeping only the state). -/
def applyOp (s : StorageService) : StoreOp → StorageService
  | StoreOp.save now item => (s.saveNewsItem now item).2
  | StoreOp.saveAll now items => (s.saveNewsItems now items).2
  | StoreOp.update id p => (s.updateNewsItem id p).2
  | StoreOp.delete id => (s.deleteNewsItem id).2

/-- Run a sequence of operations. -/
def runOps (s : StorageService) (ops : List StoreOp) : StorageService :=
  ops.foldl applyOp s

/-- A freshly constructed store. -/
def emptyStore (maxItems maxAgeInDays : Nat) : StorageService :=
  ⟨maxItems, maxAgeInDays, []⟩

/-- The store's structural invariant: every item sits under its own id, and
keys are pairwise distinct. -/
def storeInvariant (s : StorageService) : Prop :=
  (∀ e ∈ s.newsItems, e.2.id = e.1) ∧ (s.newsItems.map Prod.fst).Nodup

/-- Operations whose partial update (if any) does not touch the `id` field. -/
def goodOp : StoreOp → Prop
  | StoreOp.update _ p => p.id = none
  | _ => True

/-- Modelled from the spec: the scoring formula of the spec read with plain
(possibly overlapping) substring occurrence counts, for comparison with the
code's non-overlapping count. -/
def specScoreOverlapping (text : List Char) (c : AICategory) : ℚ :=
  ((keywordDictionary c).map
    (fun kw => (occurrencePositions (lowerChars kw) text : ℚ) * getKeywordWeight kw)).sum

/-- The combined query predicate: an item passes the source filter, both
inclusive date bounds, and the category filter (wildcard `'all'` or an absent
category passes everything; falsy `""` source passes everything). -/
def passesFilters (options : StorageFilterOptions) (i : NewsItem) : Bool :=
  (((match options.source with
     | some src => if src = "" then true else i.source == src
     | none => true) &&
    (match options.endDate with
     | some d => (i.pubDate ≤ d : Bool)
     | none => true)) &&
   (match options.startDate with
    | some d => (d ≤ i.pubDate : Bool)
    | none => true)) &&
  (match options.category with
   | some (CategoryFilter.cat c) => i.category == c
   | _ => true)

/-- The final limit slice of `getNewsItems` (`slice(0, limit)`, skipped for a
falsy limit). -/
def applyLimit (options : StorageFilterOptions) (l : List NewsItem) :
    List NewsItem :=
  match options.limit with
  | some lim => if lim = 0 then l else l.take lim
  | none => l

/-- A minimal concrete item for witnesses and counterexamples. -/
def sampleItem (id link : String) (pub : Int) : NewsItem :=
  ⟨id, "t", "d", link, pub, "src", AICategory.AI_MODELS, none, 0⟩

/-- A scheduler state with a run in flight. -/
def runningSched : SchedulerState :=
  ⟨true, ⟨none, 1, 0, 0, 0, 0, 0, true⟩, []⟩

/-- A freshly constructed scheduler state. -/
def idleSched : SchedulerState :=
  ⟨false, ⟨none, 0, 0, 0, 0, 0, 0, false⟩, []⟩

/-- A concrete source for witnesses. -/
def srcA : RSSSource := ⟨"A", "http://a.example/feed", AICategory.AI_MODELS⟩

/-- A fetch oracle whose every source is rejected. -/
def failFetch : RSSSource → Except String (List NewsItem) :=
  fun _ => Except.error "down"

/-! ### Helper lemmas -/

theorem mapDelete_sublist (l : List (String × NewsItem)) (k : String) :
    (mapDelete l k).Sublist l :=
  List.filter_sublist l

theorem evictOldestOnce_sublist (l : List (String × NewsItem)) :
    (evictOldestOnce l).Sublist l := by
  unfold evictOldestOnce
  rcases hs : sortedAsc l with _ | ⟨e, t⟩
  · exact List.Sublist.refl l
  · exact mapDelete_sublist l e.1

theorem evictOldestOnce_length_lt (l : List (String × NewsItem)) (hne : l ≠ []) :
    (evictOldestOnce l).length < l.length := by
  unfold evictOldestOnce
  have hperm : (sortedAsc l).Perm l := List.perm_insertionSort entryLE l
  rcases hs : sortedAsc l with _ | ⟨e, t⟩
  · exact absurd (hs ▸ hperm).nil_eq.symm hne
  · have he : e ∈ l := (hs ▸ hperm).mem_iff.mp (List.mem_cons_self e t)
    refine List.length_filter_lt_length_iff_exists.mpr ⟨e, he, ?_⟩
    simp [mapDelete]

theorem enforceLoopFuel_congr (maxItems : Nat) :
    ∀ (fuel fuel' : Nat) (l : List (String × NewsItem)),
      l.length ≤ fuel → l.length ≤ fuel' →
      enforceLoopFuel maxItems fuel l = enforceLoopFuel maxItems fuel' l := by
  intro fuel
  induction fuel with
  | zero =>
    intro fuel' l h _
    have hl : l = [] := List.length_eq_zero.mp (Nat.le_zero.mp h)
    subst hl
    cases fuel' with
    | zero => rfl
    | succ f => simp [enforceLoopFuel]
  | succ f ih =>
    intro fuel' l h h'
    cases fuel' with
    | zero =>
      have hl : l = [] := List.length_eq_zero.mp (Nat.le_zero.mp h')
      subst hl
      simp [enforceLoopFuel]
    | succ f' =>
      simp only [enforceLoopFuel]
      by_cases hc : l.length > maxItems
      · rw [if_pos hc, if_pos hc]
        have hne : l ≠ [] := by
          intro hl
          subst hl
          simp at hc
        have hlt := evictOldestOnce_length_lt l hne
        exact ih f' (evictOldestOnce l) (by omega) (by omega)
      · rw [if_neg hc, if_neg hc]

/-- The fuel-free characteristic equation of the capacity while loop. -/
theorem enforceLoop_eq (maxItems : Nat) (l : List (String × NewsItem)) :
    enforceLoop maxItems l =
      if l.length > maxItems then enforceLoop maxItems (evictOldestOnce l)
      else l := by
  unfold enforceLoop
  by_cases hc : l.length > maxItems
  · rw [if_pos hc]
    have hne : l ≠ [] := by
      intro hl
      subst hl
      simp at hc
    have hlt := evictOldestOnce_length_lt l hne
    rcases hn : l.length with _ | n
    · rw [hn] at hc
      omega
    · simp only [enforceLoopFuel]
      rw [if_pos hc]
      exact enforceLoopFuel_congr maxItems n (evictOldestOnce l).length
        (evictOldestOnce l) (by omega) (le_refl _)
  · rw [if_neg hc]
    rcases hn : l.length with _ | n
    · rfl
    · simp only [enforceLoopFuel]
      rw [if_neg hc]

theorem enforceLoop_sublist (maxItems : Nat) (l : List (String × NewsItem)) :
    (enforceLoop maxItems l).Sublist l := by
  rw [enforceLoop_eq]
  split
  · rename_i h
    have hne : l ≠ [] := by
      intro hl
      subst hl
      simp at h
    exact (enforceLoop_sublist maxItems (evictOldestOnce l)).trans
      (evictOldestOnce_sublist l)
  · exact List.Sublist.refl l
termination_by l.length
decreasing_by
  exact evictOldestOnce_length_lt l hne

theorem enforceLoop_length_le (maxItems : Nat) (l : List (String × NewsItem)) :
    (enforceLoop maxItems l).length ≤ maxItems := by
  rw [enforceLoop_eq]
  split
  · rename_i h
    have hne : l ≠ [] := by
      intro hl
      subst hl
      simp at h
    exact enforceLoop_length_le maxItems (evictOldestOnce l)
  · omega
termination_by l.length
decreasing_by
  exact evictOldestOnce_length_lt l hne

/-- The head of the oldest-first sort has minimal `pubDate` among the list. -/
theorem sortedAsc_head_min (l : List (String × NewsItem)) (e : String × NewsItem)
    (t : List (String × NewsItem)) (hs : sortedAsc l = e :: t) :
    ∀ y ∈ l, e.2.pubDate ≤ y.2.pubDate := by
  intro y hy
  have hsorted : List.Sorted entryLE (sortedAsc l) :=
    List.sorted_insertionSort entryLE l
  have hperm : (sortedAsc l).Perm l := List.perm_insertionSort entryLE l
  have hy' : y ∈ e :: t := (hs ▸ hperm).mem_iff.mpr hy
  rcases List.mem_cons.mp hy' with h | h
  · subst h; exact le_refl _
  · rw [hs] at hsorted
    exact (List.sorted_cons.mp hsorted).1 y h

/-- With pairwise-distinct keys, an entry of `l` sharing its key with `e ∈ l`
is `e` itself. -/
theorem key_unique (l : List (String × NewsItem))
    (hnd : (l.map Prod.fst).Nodup) {x e : String × NewsItem}
    (hx : x ∈ l) (he : e ∈ l) (hk : x.1 = e.1) : x = e :=
  List.inj_on_of_nodup_map hnd hx he hk

theorem evictOldestOnce_keys_nodup (l : List (String × NewsItem))
    (hnd : (l.map Prod.fst).Nodup) :
    ((evictOldestOnce l).map Prod.fst).Nodup :=
  (List.Sublist.map Prod.fst (evictOldestOnce_sublist l)).nodup hnd

/-- Every entry dropped by the capacity loop is at least as old as every entry
it keeps (assuming pairwise-distinct keys, as every reachable store has). -/
theorem enforceLoop_removed_oldest (maxItems : Nat)
    (l : List (String × NewsItem)) (hnd : (l.map Prod.fst).Nodup) :
    ∀ x ∈ l, x ∉ enforceLoop maxItems l →
      ∀ y ∈ enforceLoop maxItems l, x.2.pubDate ≤ y.2.pubDate := by
  rw [enforceLoop_eq]
  split
  · rename_i h
    have hne : l ≠ [] := by
      intro hl
      subst hl
      simp at h
    intro x hx hxout y hy
    by_cases hx' : x ∈ evictOldestOnce l
    · exact enforceLoop_removed_oldest maxItems (evictOldestOnce l)
        (evictOldestOnce_keys_nodup l hnd) x hx' hxout y hy
    · have hperm : (sortedAsc l).Perm l := List.perm_insertionSort entryLE l
      rcases hs : sortedAsc l with _ | ⟨e, t⟩
      · exact absurd (hs ▸ hperm).nil_eq.symm hne
      · have hxe : x = e := by
          apply key_unique l hnd hx ((hs ▸ hperm).mem_iff.mp (List.mem_cons_self e t))
          by_contra hk
          refine hx' ?_
          unfold evictOldestOnce
          rw [hs]
          exact List.mem_filter.mpr ⟨hx, by simp [mapDelete, hk]⟩
        have hyl : y ∈ l :=
          (evictOldestOnce_sublist l).subset
            ((enforceLoop_sublist maxItems (evictOldestOnce l)).subset hy)
        rw [hxe]
        exact sortedAsc_head_min l e t hs y hyl
  · intro x hx hxout
    exact absurd hx hxout
termination_by l.length
decreasing_by
  exact evictOldestOnce_length_lt l hne

theorem getKeywordWeight_nonneg (kw : String) : 0 ≤ getKeywordWeight kw := by
  unfold getKeywordWeight
  split_ifs <;> norm_num

theorem categoryScore_foldl_general (text : List Char) (kws : List String)
    (init : ℚ) :
    kws.foldl
      (fun score kw =>
        let matchCount := countOccurrences (lowerChars kw) text
        if matchCount > 0 then score + (matchCount : ℚ) * getKeywordWeight kw
        else score)
      init =
    init + (kws.map
      (fun kw => (countOccurrences (lowerChars kw) text : ℚ) * getKeywordWeight kw)).sum := by
  induction kws generalizing init with
  | nil => simp
  | cons kw rest ih =>
    simp only [List.foldl_cons, List.map_cons, List.sum_cons]
    rw [ih]
    by_cases h : countOccurrences (lowerChars kw) text > 0
    · simp only [h, if_pos]
      ring
    · have h0 : countOccurrences (lowerChars kw) text = 0 := by omega
      simp [h0]

/-- The per-category score equals the spec's sum-of-products over the
category's keywords (with the non-overlapping occurrence count). -/
theorem categoryScore_eq_sum (text : List Char) (c : AICategory) :
    categoryScore text c =
      ((keywordDictionary c).map
        (fun kw => (countOccurrences (lowerChars kw) text : ℚ) * getKeywordWeight kw)).sum := by
  unfold categoryScore
  rw [categoryScore_foldl_general]
  ring

theorem categoryScore_nonneg (text : List Char) (c : AICategory) :
    0 ≤ categoryScore text c := by
  rw [categoryScore_eq_sum]
  apply List.sum_nonneg
  intro x hx
  rcases List.mem_map.mp hx with ⟨kw, _, rfl⟩
  exact mul_nonneg (by positivity) (getKeywordWeight_nonneg kw)

theorem categoryScore_zero_of_no_match (text : List Char) (c : AICategory)
    (h : ∀ kw ∈ keywordDictionary c, countOccurrences (lowerChars kw) text = 0) :
    categoryScore text c = 0 := by
  rw [categoryScore_eq_sum]
  apply List.sum_eq_zero
  intro x hx
  rcases List.mem_map.mp hx with ⟨kw, hkw, rfl⟩
  rw [h kw hkw]
  simp

theorem pickBest_score_eq (text : List Char) (cats : List AICategory)
    (acc : AICategory × ℚ × List String) :
    (pickBest text acc cats).2.1 =
      cats.foldl (fun m c => max m (categoryScore text c)) acc.2.1 := by
  induction cats generalizing acc with
  | nil => rfl
  | cons c rest ih =>
    simp only [pickBest, List.foldl_cons] at ih ⊢
    by_cases h : acc.2.1 < categoryScore text c
    · rw [if_pos h, ih, max_eq_right (le_of_lt h)]
    · rw [if_neg h, ih, max_eq_left (le_of_not_lt h)]

theorem le_foldl_max (f : AICategory → ℚ) (cats : List AICategory) :
    ∀ init : ℚ,
      (∀ c ∈ cats, f c ≤ cats.foldl (fun m c => max m (f c)) init) ∧
      init ≤ cats.foldl (fun m c => max m (f c)) init := by
  induction cats with
  | nil => exact fun init => ⟨by simp, le_refl init⟩
  | cons c rest ih =>
    intro init
    simp only [List.foldl_cons]
    constructor
    · intro c' hc'
      rcases List.mem_cons.mp hc' with h | h
      · subst h
        exact le_trans (le_max_right init (f c')) (ih (max init (f c'))).2
      · exact (ih (max init (f c))).1 c' h
    · exact le_trans (le_max_left init (f c)) (ih (max init (f c))).2

theorem pickBest_score_le_self (text : List Char) (cats : List AICategory)
    (acc : AICategory × ℚ × List String)
    (hacc : acc.2.1 ≤ categoryScore text acc.1) :
    (pickBest text acc cats).2.1 ≤
      categoryScore text (pickBest text acc cats).1 := by
  induction cats generalizing acc with
  | nil => exact hacc
  | cons c rest ih =>
    simp only [pickBest, List.foldl_cons] at ih ⊢
    by_cases h : acc.2.1 < categoryScore text c
    · rw [if_pos h]
      exact ih (c, categoryScore text c, getMatchedKeywordsForCategory text c)
        (le_refl _)
    · rw [if_neg h]
      exact ih acc hacc

theorem pickBest_of_all_zero (text : List Char) (cats : List AICategory)
    (acc : AICategory × ℚ × List String) (hacc : acc.2.1 = 0)
    (hz : ∀ c ∈ cats, categoryScore text c = 0) :
    pickBest text acc cats = acc := by
  induction cats with
  | nil => rfl
  | cons c rest ih =>
    simp only [pickBest, List.foldl_cons] at ih ⊢
    rw [if_neg (by rw [hacc, hz c (List.mem_cons_self c rest)]; exact lt_irrefl 0)]
    exact ih (fun c' hc' => hz c' (List.mem_cons.mpr (Or.inr hc')))

theorem allCategories_complete (c : AICategory) : c ∈ allCategories := by
  cases c <;> simp [allCategories]

theorem saveNewsItem_of_dup (s : StorageService) (now : Int) (item : NewsItem)
    (h : s.isDuplicate item = true) : s.saveNewsItem now item = (false, s) := by
  simp [StorageService.saveNewsItem, h]

theorem saveNewsItem_of_not_dup (s : StorageService) (now : Int) (item : NewsItem)
    (h : s.isDuplicate item = false) :
    s.saveNewsItem now item =
      (true,
       (StorageService.cleanupOldItems
          { s with newsItems := mapSet s.newsItems item.id item } now).enforceMemoryLimit) := by
  simp [StorageService.saveNewsItem, h]

theorem saveNewsItem_maxItems (s : StorageService) (now : Int) (item : NewsItem) :
    (s.saveNewsItem now item).2.maxItems = s.maxItems := by
  by_cases h : s.isDuplicate item
  · rw [saveNewsItem_of_dup s now item h]
  · rw [saveNewsItem_of_not_dup s now item (by simpa using h)]
    rfl

theorem saveNewsItem_maxAge (s : StorageService) (now : Int) (item : NewsItem) :
    (s.saveNewsItem now item).2.maxAgeInDays = s.maxAgeInDays := by
  by_cases h : s.isDuplicate item
  · rw [saveNewsItem_of_dup s now item h]
  · rw [saveNewsItem_of_not_dup s now item (by simpa using h)]
    rfl

theorem mapGet_mem (l : List (String × NewsItem)) (k : String) (v : NewsItem)
    (h : mapGet l k = some v) : (k, v) ∈ l := by
  unfold mapGet at h
  rcases he : l.find? (fun e => e.1 == k) with _ | e
  · rw [he] at h
    simp at h
  · rw [he] at h
    have h2 : e.2 = v := by simpa using h
    have hk : e.1 = k := by simpa using List.find?_some he
    have hm : e ∈ l := List.mem_of_find?_eq_some he
    have hev : e = (k, v) := by
      rcases e with ⟨k0, v0⟩
      simp only at hk h2
      rw [hk, h2]
    rw [hev] at hm
    exact hm

theorem mapSet_inv (l : List (String × NewsItem)) (k : String) (v : NewsItem)
    (hid : v.id = k) (hinv : ∀ e ∈ l, e.2.id = e.1)
    (hnd : (l.map Prod.fst).Nodup) :
    (∀ e ∈ mapSet l k v, e.2.id = e.1) ∧ ((mapSet l k v).map Prod.fst).Nodup := by
  unfold mapSet
  by_cases h : mapHas l k = true
  · rw [if_pos h]
    constructor
    · intro e he
      rcases List.mem_map.mp he with ⟨e0, he0, rfl⟩
      by_cases hk : e0.1 = k
      · simp [beq_iff_eq, hk, hid]
      · simp only [beq_iff_eq, hk, if_false]
        exact hinv e0 he0
    · have hkeys :
          (l.map (fun e => if e.1 == k then (k, v) else e)).map Prod.fst =
            l.map Prod.fst := by
        rw [List.map_map]
        apply List.map_congr_left
        intro e _
        by_cases hk : e.1 = k
        · simp [Function.comp_apply, beq_iff_eq, hk]
        · simp [Function.comp_apply, beq_iff_eq, hk]
      rw [hkeys]
      exact hnd
  · rw [if_neg h]
    constructor
    · intro e he
      rcases List.mem_append.mp he with h1 | h1
      · exact hinv e h1
      · simp only [List.mem_singleton] at h1
        rw [h1]
        exact hid
    · rw [List.map_append]
      simp only [List.map_cons, List.map_nil]
      have hnotin : k ∉ l.map Prod.fst := by
        intro hk
        rcases List.mem_map.mp hk with ⟨e, he, hke⟩
        apply h
        unfold mapHas
        exact List.any_eq_true.mpr ⟨e, he, beq_iff_eq.mpr hke⟩
      simp [List.nodup_append, hnd, hnotin]

theorem storeInvariant_sub (s s' : StorageService)
    (hsub : s'.newsItems.Sublist s.newsItems) (hinv : storeInvariant s) :
    storeInvariant s' :=
  ⟨fun e he => hinv.1 e (hsub.subset he), (hsub.map Prod.fst).nodup hinv.2⟩

theorem storeInvariant_save (s : StorageService) (now : Int) (item : NewsItem)
    (hinv : storeInvariant s) : storeInvariant (s.saveNewsItem now item).2 := by
  by_cases h : s.isDuplicate item
  · rw [saveNewsItem_of_dup s now item h]
    exact hinv
  · rw [saveNewsItem_of_not_dup s now item (by simpa using h)]
    have hset := mapSet_inv s.newsItems item.id item rfl hinv.1 hinv.2
    have hmid :
        storeInvariant { s with newsItems := mapSet s.newsItems item.id item } :=
      ⟨hset.1, hset.2⟩
    have hclean :
        storeInvariant
          (StorageService.cleanupOldItems
            { s with newsItems := mapSet s.newsItems item.id item } now) :=
      storeInvariant_sub _ _ (List.filter_sublist _) hmid
    exact storeInvariant_sub _ _ (enforceLoop_sublist _ _) hclean

theorem storeInvariant_saveAll (now : Int) (items : List NewsItem) :
    ∀ acc : Nat × StorageService, storeInvariant acc.2 →
      storeInvariant
        (items.foldl
          (fun acc item =>
            let r := acc.2.saveNewsItem now item
            (acc.1 + (if r.1 then 1 else 0), r.2))
          acc).2 := by
  induction items with
  | nil => exact fun acc h => h
  | cons item rest ih =>
    intro acc hacc
    simp only [List.foldl_cons]
    exact ih _ (storeInvariant_save acc.2 now item hacc)

theorem storeInvariant_update (s : StorageService) (id : String)
    (p : NewsItemPatch) (hp : p.id = none) (hinv : storeInvariant s) :
    storeInvariant (s.updateNewsItem id p).2 := by
  unfold StorageService.updateNewsItem
  rcases hg : mapGet s.newsItems id with _ | existing
  · exact hinv
  · have hmem : (id, existing) ∈ s.newsItems := mapGet_mem _ _ _ hg
    have hid : existing.id = id := hinv.1 (id, existing) hmem
    have hpatch : (applyPatch existing p).id = id := by
      unfold applyPatch
      rw [hp]
      exact hid
    exact mapSet_inv s.newsItems id (applyPatch existing p) hpatch hinv.1 hinv.2

theorem storeInvariant_delete (s : StorageService) (id : String)
    (hinv : storeInvariant s) : storeInvariant (s.deleteNewsItem id).2 :=
  storeInvariant_sub s _ (mapDelete_sublist _ _) hinv

theorem storeInvariant_applyOp (s : StorageService) (op : StoreOp)
    (hg : goodOp op) (hinv : storeInvariant s) : storeInvariant (applyOp s op) := by
  cases op with
  | save now item => exact storeInvariant_save s now item hinv
  | saveAll now items => exact storeInvariant_saveAll now items (0, s) hinv
  | update id p => exact storeInvariant_update s id p hg hinv
  | delete id => exact storeInvariant_delete s id hinv

theorem collect_foldl_append (rs : List (Except String (List NewsItem)))
    (acc : List NewsItem) :
    rs.foldl
      (fun allNews result =>
        match result with
        | Except.ok items => allNews ++ items
        | Except.error _ => allNews)
      acc =
    acc ++ (rs.map
      (fun r =>
        match r with
        | Except.ok items => items
        | Except.error _ => [])).flatten := by
  induction rs generalizing acc with
  | nil => simp
  | cons r rest ih =>
    cases r with
    | ok items => simp [ih]
    | error e => simp [ih]

theorem save_into_empty (maxI maxA : Nat) (now : Int) (item : NewsItem)
    (hmax : 1 ≤ maxI) (hfresh : now - (maxA : Int) * msPerDay ≤ item.pubDate) :
    (emptyStore maxI maxA).saveNewsItem now item =
      (true, ⟨maxI, maxA, [(item.id, item)]⟩) := by
  have hd1 : (emptyStore maxI maxA).isDuplicate item = false := by
    simp [StorageService.isDuplicate, mapHas, emptyStore]
  rw [saveNewsItem_of_not_dup _ _ _ hd1]
  have h1 : mapSet (emptyStore maxI maxA).newsItems item.id item =
      [(item.id, item)] := by
    simp [mapSet, mapHas, emptyStore]
  rw [h1]
  have h2 : StorageService.cleanupOldItems
      { emptyStore maxI maxA with newsItems := [(item.id, item)] } now =
      ⟨maxI, maxA, [(item.id, item)]⟩ := by
    simp [StorageService.cleanupOldItems, emptyStore, List.filter,
      not_lt.mpr hfresh]
  rw [h2]
  unfold StorageService.enforceMemoryLimit
  rw [enforceLoop_eq]
  rw [if_neg (by simp; omega)]

theorem getKeywordWeight_eq_natCast (kw : String) :
    getKeywordWeight kw = (natWeight kw : ℚ) := by
  unfold getKeywordWeight natWeight
  split_ifs <;> norm_num

theorem sum_natmul_cast (f : String → Nat) (kws : List String) :
    (kws.map (fun kw => (f kw : ℚ) * getKeywordWeight kw)).sum =
      ((kws.map (fun kw => f kw * natWeight kw)).sum : ℚ) := by
  induction kws with
  | nil => simp
  | cons kw rest ih =>
    simp only [getKeywordWeight_eq_natCast] at ih ⊢
    simp only [List.map_cons, List.sum_cons, ih, Nat.cast_add, Nat.cast_mul]

theorem stageCat (l : List NewsItem) (cat : Option CategoryFilter) :
    (match cat with
     | some (CategoryFilter.cat c) => l.filter (fun i => i.category == c)
     | _ => l) =
    l.filter (fun i =>
      match cat with
      | some (CategoryFilter.cat c) => i.category == c
      | _ => true) := by
  rcases cat with _ | cf
  · simp
  · cases cf
    · simp
    · rfl

theorem stageStart (l : List NewsItem) (sd : Option Int) :
    (match sd with
     | some d => l.filter (fun i => (d ≤ i.pubDate : Bool))
     | none => l) =
    l.filter (fun i =>
      match sd with
      | some d => (d ≤ i.pubDate : Bool)
      | none => true) := by
  rcases sd with _ | d
  · simp
  · rfl

theorem stageEnd (l : List NewsItem) (ed : Option Int) :
    (match ed with
     | some d => l.filter (fun i => (i.pubDate ≤ d : Bool))
     | none => l) =
    l.filter (fun i =>
      match ed with
      | some d => (i.pubDate ≤ d : Bool)
      | none => true) := by
  rcases ed with _ | d
  · simp
  · rfl

theorem stageSrc (l : List NewsItem) (src : Option String) :
    (match src with
     | some s0 => if s0 = "" then l else l.filter (fun i => i.source == s0)
     | none => l) =
    l.filter (fun i =>
      match src with
      | some s0 => if s0 = "" then true else i.source == s0
      | none => true) := by
  rcases src with _ | s0
  · simp
  · by_cases h : s0 = ""
    · simp [h]
    · simp [h]

theorem stageOffset (l : List NewsItem) (off : Option Nat) :
    (match off with
     | some o => if o = 0 then l else l.drop o
     | none => l) = l.drop (off.getD 0) := by
  rcases off with _ | o
  · simp
  · by_cases h : o = 0 <;> simp [h]

theorem passesFilters_strip (options : StorageFilterOptions) :
    passesFilters { options with offset := none, limit := none } =
      passesFilters options :=
  rfl

/-- The query in normal form: one combined filter, the descending sort, the
offset drop, then the limit slice. -/
theorem getNewsItems_eq (s : StorageService) (options : StorageFilterOptions) :
    s.getNewsItems options =
      applyLimit options
        ((sortedDesc
            ((s.newsItems.map Prod.snd).filter (passesFilters options))).drop
          (options.offset.getD 0)) := by
  simp only [StorageService.getNewsItems]
  rw [stageCat, stageStart, stageEnd, stageSrc, List.filter_filter,
    List.filter_filter, List.filter_filter, stageOffset]
  rfl

/-! ### Claim theorems -/

/-- C1: `saveNewsItem` returns `false` and leaves the store completely
unchanged whenever an item with the same id is already stored, or some stored
item has the same link and a `pubDate` within one hour (inclusive) of the new
item's; in particular a fresh item saved twice into an empty store leaves the
size at 1 and the second save returns `false`. -/
theorem C1_save_rejects_duplicates :
    (∀ (s : StorageService) (now : Int) (item : NewsItem),
        ((∃ e ∈ s.newsItems, e.1 = item.id) ∨
          (∃ e ∈ s.newsItems,
            e.2.link = item.link ∧ |e.2.pubDate - item.pubDate| ≤ oneHourMs)) →
        s.saveNewsItem now item = (false, s)) ∧
    (∀ (maxI maxA : Nat) (now now2 : Int) (item : NewsItem),
        1 ≤ maxI →
        now - (maxA : Int) * msPerDay ≤ item.pubDate →
        ((emptyStore maxI maxA).saveNewsItem now item).1 = true ∧
        ((emptyStore maxI maxA).saveNewsItem now item).2.getItemCount = 1 ∧
        ((emptyStore maxI maxA).saveNewsItem now item).2.saveNewsItem now2 item =
          (false, ((emptyStore maxI maxA).saveNewsItem now item).2)) := by
  constructor
  · intro s now item h
    apply saveNewsItem_of_dup
    unfold StorageService.isDuplicate
    rcases h with ⟨e, he, hk⟩ | ⟨e, he, hl, ht⟩
    · have hm : mapHas s.newsItems item.id = true := by
        unfold mapHas
        exact List.any_eq_true.mpr ⟨e, he, beq_iff_eq.mpr hk⟩
      rw [hm, Bool.true_or]
    · have hany : s.newsItems.any
          (fun e =>
            e.2.link == item.link &&
              ((e.2.pubDate - item.pubDate).natAbs ≤ 3600000 : Bool)) = true := by
        refine List.any_eq_true.mpr ⟨e, he, ?_⟩
        rw [Bool.and_eq_true]
        refine ⟨beq_iff_eq.mpr hl, ?_⟩
        have h1 : (e.2.pubDate - item.pubDate).natAbs ≤ 3600000 := by
          rw [Int.abs_eq_natAbs] at ht
          unfold oneHourMs at ht
          omega
        simpa using h1
      rw [hany, Bool.or_true]
  · intro maxI maxA now now2 item hmax hfresh
    have hs := save_into_empty maxI maxA now item hmax hfresh
    refine ⟨by rw [hs], by rw [hs]; rfl, ?_⟩
    rw [hs]
    apply saveNewsItem_of_dup
    simp [StorageService.isDuplicate, mapHas]

/-- Witness for C1 at concrete inputs. -/
theorem C1_save_rejects_duplicates_witness :
    (⟨1000, 7, [("a", sampleItem "a" "L" 0)]⟩ : StorageService).saveNewsItem 0
        (sampleItem "a" "L" 0) =
      (false, ⟨1000, 7, [("a", sampleItem "a" "L" 0)]⟩) ∧
    ((emptyStore 1000 7).saveNewsItem 0 (sampleItem "b" "L" 0)).2.getItemCount = 1 := by
  constructor
  · exact C1_save_rejects_duplicates.1 _ 0 _
      (Or.inl ⟨("a", sampleItem "a" "L" 0), List.mem_singleton.mpr rfl, rfl⟩)
  · exact (C1_save_rejects_duplicates.2 1000 7 0 0 (sampleItem "b" "L" 0)
      (by norm_num) (by norm_num [msPerDay, sampleItem])).2.1

/-- C3 as stated is false: a duplicate-rejected save performs no retention
cleanup, so with `maxAgeDays = 1` an item whose `pubDate` is two days in the
past can survive a `saveNewsItem` call. -/
theorem C3_counterexample :
    ((((emptyStore 1000 1).saveNewsItem 0 (sampleItem "a" "L" 0)).2.saveNewsItem
        (2 * msPerDay) (sampleItem "a" "L" 0)).1 = false) ∧
    (((emptyStore 1000 1).saveNewsItem 0 (sampleItem "a" "L" 0)).2.saveNewsItem
        (2 * msPerDay) (sampleItem "a" "L" 0)).2.getNewsItem "a" =
      some (sampleItem "a" "L" 0) ∧
    (sampleItem "a" "L" 0).pubDate < 2 * msPerDay - 1 * msPerDay := by
  decide

/-- C3 (amended): after every `saveNewsItem` call that returns `true`, no item
whose `pubDate` is more than `maxAgeInDays` days before the current time
remains; with `maxAgeDays = 1`, a successful fresh save purges a 2-day-old
item while the item published now remains. -/
theorem C3_retention_after_successful_save :
    (∀ (s : StorageService) (now : Int) (item : NewsItem),
        (s.saveNewsItem now item).1 = true →
        ∀ e ∈ (s.saveNewsItem now item).2.newsItems,
          ¬(e.2.pubDate < now - (s.maxAgeInDays : Int) * msPerDay)) ∧
    ((⟨1000, 1, [("old", sampleItem "old" "L1" 0)]⟩ : StorageService).saveNewsItem
        (2 * msPerDay) (sampleItem "new" "L2" (2 * msPerDay))).2.getNewsItem "old" =
      none ∧
    ((⟨1000, 1, [("old", sampleItem "old" "L1" 0)]⟩ : StorageService).saveNewsItem
        (2 * msPerDay) (sampleItem "new" "L2" (2 * msPerDay))).2.getNewsItem "new" =
      some (sampleItem "new" "L2" (2 * msPerDay)) := by
  refine ⟨?_, by decide, by decide⟩
  intro s now item hsave e he
  by_cases hd : s.isDuplicate item = true
  · rw [saveNewsItem_of_dup s now item hd] at hsave
    simp at hsave
  · rw [saveNewsItem_of_not_dup s now item (by simpa using hd)] at he
    unfold StorageService.enforceMemoryLimit at he
    have he2 := (enforceLoop_sublist _ _).subset he
    unfold StorageService.cleanupOldItems at he2
    have hfilter := (List.mem_filter.mp he2).2
    simpa using hfilter

/-- Witness for C3 at concrete inputs. -/
theorem C3_retention_witness :
    ¬((("w", sampleItem "w" "L" 0) : String × NewsItem).2.pubDate <
        0 - ((emptyStore 10 7).maxAgeInDays : Int) * msPerDay) :=
  C3_retention_after_successful_save.1 (emptyStore 10 7) 0 (sampleItem "w" "L" 0)
    (by decide) ("w", sampleItem "w" "L" 0) (by decide)

/-- C4: after a save the store holds at most `maxItems` items (the count
invariant is established by every successful save and preserved by every
call), capacity eviction removes only oldest-by-`pubDate` entries, and with
`maxItems = 2` saving three items with distinct timestamps leaves exactly the
two most recent, the oldest being unretrievable. -/
theorem C4_capacity_eviction :
    (∀ (s : StorageService) (now : Int) (item : NewsItem),
        (s.saveNewsItem now item).1 = true →
        (s.saveNewsItem now item).2.getItemCount ≤ s.maxItems) ∧
    (∀ (s : StorageService) (now : Int) (item : NewsItem),
        s.getItemCount ≤ s.maxItems →
        (s.saveNewsItem now item).2.getItemCount ≤ s.maxItems) ∧
    (∀ s : StorageService, (s.newsItems.map Prod.fst).Nodup →
        ∀ x ∈ s.newsItems, x ∉ s.enforceMemoryLimit.newsItems →
          ∀ y ∈ s.enforceMemoryLimit.newsItems, x.2.pubDate ≤ y.2.pubDate) ∧
    ((((emptyStore 2 7).saveNewsItem 10 (sampleItem "a" "L1" 1)).2.saveNewsItem 10
          (sampleItem "b" "L2" 2)).2.saveNewsItem 10
        (sampleItem "c" "L3" 3)).2.newsItems =
      [("b", sampleItem "b" "L2" 2), ("c", sampleItem "c" "L3" 3)] ∧
    ((((emptyStore 2 7).saveNewsItem 10 (sampleItem "a" "L1" 1)).2.saveNewsItem 10
          (sampleItem "b" "L2" 2)).2.saveNewsItem 10
        (sampleItem "c" "L3" 3)).2.getNewsItem "a" = none := by
  have hpart1 : ∀ (s : StorageService) (now : Int) (item : NewsItem),
      (s.saveNewsItem now item).1 = true →
      (s.saveNewsItem now item).2.getItemCount ≤ s.maxItems := by
    intro s now item hsave
    by_cases hd : s.isDuplicate item = true
    · rw [saveNewsItem_of_dup s now item hd] at hsave
      simp at hsave
    · rw [saveNewsItem_of_not_dup s now item (by simpa using hd)]
      exact enforceLoop_length_le _ _
  refine ⟨hpart1, ?_, ?_, by decide, by decide⟩
  · intro s now item hcount
    by_cases hd : s.isDuplicate item = true
    · rw [saveNewsItem_of_dup s now item hd]
      exact hcount
    · apply hpart1
      rw [saveNewsItem_of_not_dup s now item (by simpa using hd)]
  · intro s hnd x hx hxout y hy
    exact enforceLoop_removed_oldest s.maxItems s.newsItems hnd x hx hxout y hy

/-- Witness for C4 at concrete inputs. -/
theorem C4_capacity_eviction_witness :
    ((emptyStore 5 7).saveNewsItem 0 (sampleItem "w" "L" 0)).2.getItemCount ≤
      (emptyStore 5 7).maxItems :=
  C4_capacity_eviction.2.1 (emptyStore 5 7) 0 (sampleItem "w" "L" 0) (by decide)

/-- C10: there is an input on which `saveNewsItem` returns `true` yet the item
is absent immediately afterwards: a non-duplicate item older than the
retention age is inserted and purged by the cleanup inside the same call, so
`true` does not guarantee the item is retrievable by `getNewsItem`. -/
theorem C10_save_true_but_unretrievable :
    ((emptyStore 1000 7).saveNewsItem (8 * msPerDay) (sampleItem "old" "L" 0)).1 =
      true ∧
    ((emptyStore 1000 7).saveNewsItem (8 * msPerDay)
        (sampleItem "old" "L" 0)).2.getNewsItem "old" = none := by
  decide

/-- C2 as stated is false in its error string: the result returned while a
run is in flight carries the error "Collection already in progress", not
"already in progress". -/
theorem C2_counterexample :
    runningSched.isRunning = true ∧
    (executeCollection runningSched 0 0 (PipelineOutcome.ok 0)).1.error ≠
      some "already in progress" := by
  exact ⟨rfl, by decide⟩

/-- C2 (amended): a trigger while a run is in flight returns immediately with
`success = false`, `itemsCollected = 0` and error
"Collection already in progress", without running the pipeline or changing
state; two interleaved triggers yield exactly one success and one such
failure. -/
theorem C2_mutual_exclusion :
    (∀ (st : SchedulerState) (now : Int) (duration : Nat)
        (outcome : PipelineOutcome),
        st.isRunning = true →
        executeCollection st now duration outcome = (busyResult, st) ∧
        busyResult.success = false ∧
        busyResult.itemsCollected = 0 ∧
        busyResult.error = some "Collection already in progress") ∧
    (∀ (st st1 : SchedulerState) (now now2 : Int) (d d2 saved : Nat)
        (outcome2 : PipelineOutcome),
        beginCollection st = some st1 →
        executeCollection st1 now2 d2 outcome2 = (busyResult, st1) ∧
        (executeCollection st now d (PipelineOutcome.ok saved)).1.success = true ∧
        (executeCollection st now d (PipelineOutcome.ok saved)).1.error = none) := by
  constructor
  · intro st now duration outcome h
    refine ⟨?_, rfl, rfl, rfl⟩
    unfold executeCollection beginCollection
    rw [if_pos h]
  · intro st st1 now now2 d d2 saved outcome2 hbegin
    have hrun : st.isRunning = false := by
      unfold beginCollection at hbegin
      by_cases h : st.isRunning = true
      · rw [if_pos h] at hbegin
        exact absurd hbegin (by simp)
      · simpa using h
    have hrun1 : st1.isRunning = true := by
      unfold beginCollection at hbegin
      rw [if_neg (by simp [hrun])] at hbegin
      have := Option.some.inj hbegin
      rw [← this]
    refine ⟨?_, ?_, ?_⟩
    · unfold executeCollection beginCollection
      rw [if_pos hrun1]
    · unfold executeCollection
      rw [hbegin]
      rfl
    · unfold executeCollection
      rw [hbegin]
      rfl

/-- Witness for C2 at concrete inputs. -/
theorem C2_mutual_exclusion_witness :
    executeCollection runningSched 0 0 (PipelineOutcome.ok 3) =
      (busyResult, runningSched) ∧
    (executeCollection idleSched 0 5 (PipelineOutcome.ok 2)).1.success = true := by
  constructor
  · exact (C2_mutual_exclusion.1 runningSched 0 0 (PipelineOutcome.ok 3) rfl).1
  · exact (C2_mutual_exclusion.2 idleSched
      ⟨true, ⟨none, 1, 0, 0, 0, 0, 0, false⟩, []⟩ 0 0 5 0 2
      (PipelineOutcome.ok 0) rfl).2.1

/-- C7: the coordinator never fails as a whole: it returns the concatenation
of the fulfilled sources' item lists in source-iteration order (each source's
items in feed order), rejected sources contribute nothing, and when every
source is rejected it returns the empty list. -/
theorem C7_collect_partial_failure :
    (∀ (sources : List RSSSource)
        (fetchResult : RSSSource → Except String (List NewsItem)),
        collectFromAllSources sources fetchResult =
          (sources.map
            (fun s =>
              match fetchResult s with
              | Except.ok items => items
              | Except.error _ => [])).flatten) ∧
    (∀ (sources : List RSSSource)
        (fetchResult : RSSSource → Except String (List NewsItem)),
        (∀ s ∈ sources, ∃ msg, fetchResult s = Except.error msg) →
        collectFromAllSources sources fetchResult = []) := by
  have hpart1 : ∀ (sources : List RSSSource)
      (fetchResult : RSSSource → Except String (List NewsItem)),
      collectFromAllSources sources fetchResult =
        (sources.map
          (fun s =>
            match fetchResult s with
            | Except.ok items => items
            | Except.error _ => [])).flatten := by
    intro sources fetchResult
    unfold collectFromAllSources
    rw [collect_foldl_append, List.nil_append, List.map_map]
    rfl
  refine ⟨hpart1, ?_⟩
  intro sources fetchResult hfail
  rw [hpart1]
  induction sources with
  | nil => rfl
  | cons s rest ih =>
    simp only [List.map_cons, List.flatten_cons]
    rcases hfail s (List.mem_cons_self s rest) with ⟨msg, hmsg⟩
    rw [hmsg]
    simpa using ih (fun s' hs' => hfail s' (List.mem_cons.mpr (Or.inr hs')))

/-- Witness for C7 at concrete inputs. -/
theorem C7_collect_partial_failure_witness :
    collectFromAllSources [srcA] failFetch = [] :=
  C7_collect_partial_failure.2 [srcA] failFetch (fun _ _ => ⟨"down", rfl⟩)

/-- C9 as stated is false: `updateNewsItem` spreads a partial update that may
contain `id`, storing under key "a" an item whose `id` field is "b". -/
theorem C9_counterexample :
    (runOps (emptyStore 1000 7)
        [StoreOp.save 0 (sampleItem "a" "L" 0),
         StoreOp.update "a" { NewsItemPatch.empty with id := some "b" }]).newsItems =
      [("a", { sampleItem "a" "L" 0 with id := "b" })] ∧
    ({ sampleItem "a" "L" 0 with id := "b" } : NewsItem).id ≠ "a" := by
  decide

/-- C9 (amended): in every store state reachable from a fresh store by save,
saveAll, delete, and updates whose partial does not set `id`, every stored
item's `id` field equals the key it is stored under, and no two stored entries
share the same `id` field. -/
theorem C9_id_key_invariant :
    ∀ (maxI maxA : Nat) (ops : List StoreOp),
      (∀ op ∈ ops, goodOp op) →
      (∀ e ∈ (runOps (emptyStore maxI maxA) ops).newsItems, e.2.id = e.1) ∧
      ∀ e1 ∈ (runOps (emptyStore maxI maxA) ops).newsItems,
        ∀ e2 ∈ (runOps (emptyStore maxI maxA) ops).newsItems,
          e1.2.id = e2.2.id → e1 = e2 := by
  intro maxI maxA ops hgood
  have hfold : ∀ (ops : List StoreOp) (s : StorageService),
      (∀ op ∈ ops, goodOp op) → storeInvariant s →
      storeInvariant (ops.foldl applyOp s) := by
    intro ops
    induction ops with
    | nil => exact fun s _ h => h
    | cons op rest ih =>
      intro s hg hs
      exact ih _ (fun o ho => hg o (List.mem_cons.mpr (Or.inr ho)))
        (storeInvariant_applyOp s op (hg op (List.mem_cons_self op rest)) hs)
  have hinv : storeInvariant (runOps (emptyStore maxI maxA) ops) :=
    hfold ops (emptyStore maxI maxA) hgood
      ⟨by simp [emptyStore], by simp [emptyStore]⟩
  refine ⟨hinv.1, ?_⟩
  intro e1 h1 e2 h2 hid
  have hk : e1.1 = e2.1 := by
    rw [← hinv.1 e1 h1, ← hinv.1 e2 h2, hid]
  exact key_unique _ hinv.2 h1 h2 hk

/-- Witness for C9 at concrete inputs. -/
theorem C9_id_key_invariant_witness :
    (("a", sampleItem "a" "L" 0) : String × NewsItem).2.id =
      (("a", sampleItem "a" "L" 0) : String × NewsItem).1 :=
  (C9_id_key_invariant 1000 7 [StoreOp.save 0 (sampleItem "a" "L" 0)]
      (fun op hop => by
        rcases List.mem_singleton.mp hop with rfl
        exact trivial)).1
    ("a", sampleItem "a" "L" 0) (by decide)

/-- C5: `classifyNews` returns the item's source-provided default category
exactly when the computed confidence is strictly below the configured
threshold, and otherwise the analysed candidate, whose score is maximal over
all categories; text containing no keyword of any category yields the item's
supplied category. -/
theorem C5_classify_fallback :
    (∀ (svc : ClassificationService) (item : NewsItem),
        (analyzeContent svc.defaultCategory item.title item.description).confidence <
            svc.minConfidenceThreshold →
        svc.classifyNews item = item.category) ∧
    (∀ (svc : ClassificationService) (item : NewsItem),
        ¬((analyzeContent svc.defaultCategory item.title item.description).confidence <
            svc.minConfidenceThreshold) →
        svc.classifyNews item =
          (analyzeContent svc.defaultCategory item.title item.description).category ∧
        ∀ c : AICategory,
          categoryScore (combinedLower item.title item.description) c ≤
            categoryScore (combinedLower item.title item.description)
              (svc.classifyNews item)) ∧
    (∀ (svc : ClassificationService) (item : NewsItem),
        0 < svc.minConfidenceThreshold →
        (∀ (c : AICategory), ∀ kw ∈ keywordDictionary c,
            countOccurrences (lowerChars kw)
              (combinedLower item.title item.description) = 0) →
        svc.classifyNews item = item.category) := by
  have hpart1 : ∀ (svc : ClassificationService) (item : NewsItem),
      (analyzeContent svc.defaultCategory item.title item.description).confidence <
        svc.minConfidenceThreshold →
      svc.classifyNews item = item.category := by
    intro svc item h
    unfold ClassificationService.classifyNews
    rw [if_pos h]
  refine ⟨hpart1, ?_, ?_⟩
  · intro svc item h
    have hcat : svc.classifyNews item =
        (analyzeContent svc.defaultCategory item.title item.description).category := by
      unfold ClassificationService.classifyNews
      rw [if_neg h]
    refine ⟨hcat, ?_⟩
    intro c
    rw [hcat]
    have hinit :
        ((svc.defaultCategory, (0 : ℚ), ([] : List String)) :
            AICategory × ℚ × List String).2.1 ≤
          categoryScore (combinedLower item.title item.description)
            ((svc.defaultCategory, (0 : ℚ), ([] : List String)) :
              AICategory × ℚ × List String).1 := by
      simpa using
        categoryScore_nonneg (combinedLower item.title item.description)
          svc.defaultCategory
    have hachieve :
        (pickBest (combinedLower item.title item.description)
            (svc.defaultCategory, 0, []) allCategories).2.1 ≤
          categoryScore (combinedLower item.title item.description)
            (pickBest (combinedLower item.title item.description)
              (svc.defaultCategory, 0, []) allCategories).1 :=
      pickBest_score_le_self (combinedLower item.title item.description)
        allCategories (svc.defaultCategory, 0, []) hinit
    have hmax : categoryScore (combinedLower item.title item.description) c ≤
        (pickBest (combinedLower item.title item.description)
          (svc.defaultCategory, 0, []) allCategories).2.1 := by
      rw [pickBest_score_eq]
      exact (le_foldl_max (categoryScore (combinedLower item.title item.description))
        allCategories 0).1 c (allCategories_complete c)
    have hcat2 :
        (analyzeContent svc.defaultCategory item.title item.description).category =
          (pickBest (combinedLower item.title item.description)
            (svc.defaultCategory, 0, []) allCategories).1 := by
      simp only [analyzeContent]
    rw [hcat2]
    exact le_trans hmax hachieve
  · intro svc item hpos hzero
    apply hpart1
    have hz : ∀ c ∈ allCategories,
        categoryScore (combinedLower item.title item.description) c = 0 :=
      fun c _ => categoryScore_zero_of_no_match _ c (hzero c)
    have hbest : pickBest (combinedLower item.title item.description)
        (svc.defaultCategory, 0, []) allCategories =
        (svc.defaultCategory, 0, []) :=
      pickBest_of_all_zero _ allCategories _ rfl hz
    have hconf :
        (analyzeContent svc.defaultCategory item.title item.description).confidence =
          0 := by
      simp only [analyzeContent, hbest]
      rw [zero_div]
      exact min_eq_left (by norm_num)
    rw [hconf]
    exact hpos

/-- Witness for C5 at concrete inputs. -/
theorem C5_classify_fallback_witness :
    (⟨AICategory.AI_MODELS, 1/10⟩ : ClassificationService).classifyNews
        ⟨"x", "zzz", "qqq", "L", 0, "s", AICategory.AI_CLI, none, 0⟩ =
      AICategory.AI_CLI :=
  C5_classify_fallback.2.2 ⟨AICategory.AI_MODELS, 1/10⟩
    ⟨"x", "zzz", "qqq", "L", 0, "s", AICategory.AI_CLI, none, 0⟩ (by norm_num)
    (by intro c; cases c <;> decide)

/-- C6 as stated is false: read as the plain (overlapping-positions)
substring occurrence count, the formula gives the AI_ASSISTANT category score
2 on the text "Alexalexa" (keyword "Alexa" occurs at two overlapping
positions), while the code's regex scan counts non-overlapping matches and
scores 1. -/
theorem C6_counterexample :
    categoryScore (combinedLower "Alexalexa" "") AICategory.AI_ASSISTANT = 1 ∧
    specScoreOverlapping (combinedLower "Alexalexa" "")
        AICategory.AI_ASSISTANT = 2 ∧
    (1 : ℚ) ≠ 2 := by
  refine ⟨?_, ?_, by norm_num⟩
  · rw [categoryScore_eq_sum, sum_natmul_cast]
    have h : ((keywordDictionary AICategory.AI_ASSISTANT).map
        (fun kw =>
          countOccurrences (lowerChars kw) (combinedLower "Alexalexa" "") *
            natWeight kw)).sum = 1 := by
      decide
    rw [h]
    norm_num
  · unfold specScoreOverlapping
    rw [sum_natmul_cast]
    have h : ((keywordDictionary AICategory.AI_ASSISTANT).map
        (fun kw =>
          occurrencePositions (lowerChars kw) (combinedLower "Alexalexa" "") *
            natWeight kw)).sum = 2 := by
      decide
    rw [h]
    norm_num

/-- C6 (amended): the per-category score is the sum over the category's
keywords of the non-overlapping occurrence count (left-to-right, resuming
after each match) times the length-tiered weight, and the confidence equals
min(best_score / max(text_length/100, 1), 1) where best_score is the maximum
category score. -/
theorem C6_keyword_scoring :
    (∀ (text : List Char) (c : AICategory),
        categoryScore text c =
          ((keywordDictionary c).map
            (fun kw =>
              (countOccurrences (lowerChars kw) text : ℚ) *
                getKeywordWeight kw)).sum) ∧
    (∀ (d : AICategory) (title description : String),
        (analyzeContent d title description).confidence =
          min
            (((allCategories.map
                  (categoryScore (combinedLower title description))).foldl max 0) /
              max (((combinedLower title description).length : ℚ) / 100) 1)
            1) := by
  refine ⟨categoryScore_eq_sum, ?_⟩
  intro d title description
  simp only [analyzeContent]
  rw [pickBest_score_eq, List.foldl_map]

/-- C8: the query returns exactly the stored items that pass the category
filter (wildcard or absent passes all), the source filter, and the inclusive
date bounds, sorted by `pubDate` descending, with the offset applied before
the limit; with no filters it returns all items sorted descending. -/
theorem C8_query_spec :
    ∀ (s : StorageService) (options : StorageFilterOptions),
      (s.getNewsItems { options with offset := none, limit := none }).Perm
          ((s.newsItems.map Prod.snd).filter (passesFilters options)) ∧
      List.Pairwise (fun a b : NewsItem => b.pubDate ≤ a.pubDate)
          (s.getNewsItems { options with offset := none, limit := none }) ∧
      s.getNewsItems options =
        applyLimit options
          ((s.getNewsItems { options with offset := none, limit := none }).drop
            (options.offset.getD 0)) := by
  intro s options
  have hbase : s.getNewsItems { options with offset := none, limit := none } =
      sortedDesc ((s.newsItems.map Prod.snd).filter (passesFilters options)) := by
    rw [getNewsItems_eq]
    rfl
  refine ⟨?_, ?_, ?_⟩
  · rw [hbase]
    exact List.perm_insertionSort itemGE _
  · rw [hbase]
    exact List.sorted_insertionSort itemGE
      ((s.newsItems.map Prod.snd).filter (passesFilters options))
  · rw [getNewsItems_eq s options, hbase]

end AINews
